import Mathlib

/-!
Verification of the label-strip layout engine of this repository
(src/processor.py and src/app.py) against its specification.

The geometry of the program is embedded shallowly over the rationals:
page boxes become explicit rectangles, the pypdf Transformation objects
built by the code (which only ever use axis-aligned scaling and
translation) become diagonal affine maps, and the PDF output of a run is
abstracted to the data the layout engine actually decides: the output
canvas width and height, and the ordered list of affine placements that
the code hands to merge_transformed_page.  Fallible paths (empty
document, page index out of range) are modelled with Except, mirroring
the ValueError and IndexError raised by the Python code.
-/

/-- Rectangle of a PDF page box, in points.  Mirrors the four coordinates
the source reads from a pypdf box object: box.left, box.bottom,
box.right, box.top. -/
structure Box where
  left : ℚ
  bottom : ℚ
  right : ℚ
  top : ℚ
deriving DecidableEq

/-- Width of a box, as computed by get_dims (urx - llx). -/
def boxW (b : Box) : ℚ := b.right - b.left

/-- Height of a box, as computed by get_dims (ury - lly). -/
def boxH (b : Box) : ℚ := b.top - b.bottom

/-- A source page: it exposes a media rectangle and an optional crop
rectangle, exactly the data the source queries on a pypdf page. -/
structure Page where
  mediabox : Box
  cropbox : Option Box
deriving DecidableEq

/-- Embeds processor.py _get_box, app.py get_box and the _get_box nested
in build_two_labels, which are textually the same logic:
page.cropbox if use_cropbox and page.cropbox is not None else page.mediabox. -/
def get_box (page : Page) (use_cropbox : Bool) : Box :=
  match use_cropbox, page.cropbox with
  | true, some cb => cb
  | _, _ => page.mediabox

/-- Embeds processor.py _get_dims / app.py get_dims_from_box and _dims:
returns llx, lly, width, height of the selected box. -/
def get_dims (page : Page) (use_cropbox : Bool) : ℚ × ℚ × ℚ × ℚ :=
  let box := get_box page use_cropbox
  (box.left, box.bottom, box.right - box.left, box.top - box.bottom)

/-- The fixed unit conversion constant of both source files. -/
def POINTS_PER_INCH : ℚ := 72

/-- The affine maps the source builds.  pypdf transformations are general
2x3 matrices, but the code only ever composes translate and axis-aligned
scale, so every transformation it builds is diagonal:
apply (x, y) = (a*x + e, d*y + f). -/
structure Transformation where
  a : ℚ
  d : ℚ
  e : ℚ
  f : ℚ
deriving DecidableEq

/-- pypdf Transformation(): the identity map. -/
def Transformation.id : Transformation := ⟨1, 1, 0, 0⟩

/-- pypdf Transformation.translate: the translation is applied after the
existing map (pypdf adds tx, ty to the last matrix row). -/
def Transformation.translate (t : Transformation) (tx ty : ℚ) : Transformation :=
  ⟨t.a, t.d, t.e + tx, t.f + ty⟩

/-- pypdf Transformation.scale: the scale is applied after the existing
map (pypdf multiplies the matrix by the diagonal scale on the right). -/
def Transformation.scale (t : Transformation) (sx sy : ℚ) : Transformation :=
  ⟨t.a * sx, t.d * sy, t.e * sx, t.f * sy⟩

/-- Image of a vertical coordinate under a placement map. -/
def Transformation.applyY (t : Transformation) (y : ℚ) : ℚ := t.d * y + t.f

/-- The errors the source raises before producing any output:
ValueError for an empty document, IndexError for a bad page index. -/
inductive StripError where
  | valueError : StripError
  | indexError : StripError
deriving DecidableEq

/-- The layout content of one produced PDF: the blank page dimensions
passed to add_blank_page and the ordered transformations passed to
merge_transformed_page, one per placed copy. -/
structure StripOutput where
  out_w : ℚ
  out_h : ℚ
  merges : List Transformation
deriving DecidableEq

/-- Body of processor.py build_strip_bytes after the page checks, acting
on the selected source page.  _get_dims is inlined into its four
components; everything else follows the source line by line. -/
def stripCore (src : Page) (count : ℤ) (die_gap_in bleed_in : ℚ)
    (use_cropbox scale_for_bleed : Bool) : StripOutput :=
  let box := get_box src use_cropbox
  let llx := box.left
  let lly := box.bottom
  let w_pts := box.right - box.left
  let h_pts := box.top - box.bottom
  let gap_pts := die_gap_in * POINTS_PER_INCH
  let bleed_pts := bleed_in * POINTS_PER_INCH
  let out_w := w_pts
  let out_h := (count : ℚ) * h_pts + ((count : ℚ) - 1) * gap_pts + 2 * bleed_pts
  let base_t := Transformation.id.translate (-llx) (-lly)
  let scaled : Transformation × ℚ :=
    if scale_for_bleed ∧ 0 < h_pts then
      let scale_y := (h_pts + 2 * bleed_pts) / h_pts
      (base_t.scale 1 scale_y, h_pts * scale_y)
    else
      (base_t, h_pts + 2 * bleed_pts)
  { out_w := out_w
    out_h := out_h
    merges := (List.range count.toNat).map (fun (i : ℕ) =>
      let y_center := bleed_pts + (i : ℚ) * (h_pts + gap_pts) + h_pts / 2
      let y_bottom := y_center - scaled.2 / 2
      scaled.1.translate 0 y_bottom) }

/-- Embeds processor.py build_strip_bytes: the empty-document and
page-index checks followed by the layout body. -/
def build_strip_bytes (pages : List Page) (page_index count : ℤ)
    (die_gap_in bleed_in : ℚ) (use_cropbox scale_for_bleed : Bool) :
    Except StripError StripOutput :=
  if pages.length = 0 then .error .valueError
  else if h : 0 ≤ page_index ∧ page_index < (pages.length : ℤ) then
    .ok (stripCore (pages.get ⟨page_index.toNat, by omega⟩)
      count die_gap_in bleed_in use_cropbox scale_for_bleed)
  else .error .indexError

/-- Body of app.py build_two_labels after the page checks, acting on the
selected source page.  _dims is inlined into its four components;
everything else follows the source line by line. -/
def twoCore (src : Page) (die_gap_in scale_percent : ℚ)
    (use_cropbox : Bool) : StripOutput :=
  let box := get_box src use_cropbox
  let llx := box.left
  let lly := box.bottom
  let w_pts := box.right - box.left
  let h_pts := box.top - box.bottom
  let gap_pts := die_gap_in * POINTS_PER_INCH
  let sy := 1 + scale_percent / 100
  let placed_h := h_pts * sy
  let extra := placed_h - h_pts
  let bottom_margin := extra / 2
  let out_w := w_pts
  let out_h := 2 * placed_h + gap_pts
  let base := (Transformation.id.translate (-llx) (-lly)).scale 1 sy
  let y0 := bottom_margin
  let y1 := bottom_margin + h_pts + gap_pts
  { out_w := out_w
    out_h := out_h
    merges := [base.translate 0 y0, base.translate 0 y1] }

/-- Embeds app.py build_two_labels: the empty-document and page-index
checks followed by the two-copy layout body. -/
def build_two_labels (pages : List Page) (page_index : ℤ)
    (die_gap_in scale_percent : ℚ) (use_cropbox : Bool) :
    Except StripError StripOutput :=
  if pages.length = 0 then .error .valueError
  else if h : 0 ≤ page_index ∧ page_index < (pages.length : ℤ) then
    .ok (twoCore (pages.get ⟨page_index.toNat, by omega⟩)
      die_gap_in scale_percent use_cropbox)
  else .error .indexError

/-- Whether a run succeeded (no exception raised). -/
def isOk : Except StripError StripOutput → Bool
  | .ok _ => true
  | .error _ => false

/-- Canvas height of a successful run. -/
def outH : Except StripError StripOutput → Option ℚ
  | .ok o => some o.out_h
  | .error _ => none

/-- Canvas width of a successful run. -/
def outW : Except StripError StripOutput → Option ℚ
  | .ok o => some o.out_w
  | .error _ => none

/-- Number of placed copies of a successful run. -/
def mergeCount : Except StripError StripOutput → Option ℕ
  | .ok o => some o.merges.length
  | .error _ => none

/-- Placement transformation of copy i of a successful run. -/
def mergeAt (r : Except StripError StripOutput) (i : ℕ) : Option Transformation :=
  match r with
  | .ok o => o.merges[i]?
  | .error _ => none

/-- Bottom edge of the placed (possibly scaled) art of copy i: the image
of the source box bottom under the placement of copy i. -/
def artBottomAt (r : Except StripError StripOutput) (box : Box) (i : ℕ) : Option ℚ :=
  (mergeAt r i).map (fun t => t.applyY box.bottom)

/-- Top edge of the placed (possibly scaled) art of copy i: the image of
the source box top under the placement of copy i. -/
def artTopAt (r : Except StripError StripOutput) (box : Box) (i : ℕ) : Option ℚ :=
  (mergeAt r i).map (fun t => t.applyY box.top)

/-- Die center of copy i: the image of the vertical midpoint of the
source box under the placement of copy i.  The placements built by the
code scale symmetrically about this point, so it is the midpoint of the
nominal (unscaled) label within the canvas. -/
def dieCenterAt (r : Except StripError StripOutput) (box : Box) (i : ℕ) : Option ℚ :=
  (mergeAt r i).map (fun t => t.applyY ((box.bottom + box.top) / 2))

/-- Bottom edge of the nominal, unscaled label of copy i: half the
unscaled box height below the die center. -/
def unscaledBottomAt (r : Except StripError StripOutput) (box : Box) (i : ℕ) : Option ℚ :=
  (dieCenterAt r box i).map (fun c => c - (box.top - box.bottom) / 2)

/-- Top edge of the nominal, unscaled label of copy i: half the unscaled
box height above the die center. -/
def unscaledTopAt (r : Except StripError StripOutput) (box : Box) (i : ℕ) : Option ℚ :=
  (dieCenterAt r box i).map (fun c => c + (box.top - box.bottom) / 2)

/-- The die gap realized between copy i and copy i+1: distance from the
unscaled top edge of copy i up to the unscaled bottom edge of copy i+1. -/
def dieGapAt (r : Except StripError StripOutput) (box : Box) (i : ℕ) : Option ℚ :=
  match unscaledBottomAt r box (i + 1), unscaledTopAt r box i with
  | some lo, some hi => some (lo - hi)
  | _, _ => none

/-- Height of the placed (possibly scaled) art of copy i. -/
def placedHeightAt (r : Except StripError StripOutput) (box : Box) (i : ℕ) : Option ℚ :=
  match artTopAt r box i, artBottomAt r box i with
  | some t, some bo => some (t - bo)
  | _, _ => none

/-- Difference of the die centers of copy i between two runs: how far the
center moved from the second run to the first. -/
def centerShift (r1 r2 : Except StripError StripOutput) (box : Box) (i : ℕ) : Option ℚ :=
  match dieCenterAt r1 box i, dieCenterAt r2 box i with
  | some c1, some c2 => some (c1 - c2)
  | _, _ => none

/-- Sample 72 x 100 pt page with no crop rectangle. -/
def boxA : Box := ⟨0, 0, 72, 100⟩

/-- Page carrying boxA as its media rectangle. -/
def pageA : Page := ⟨boxA, none⟩

/-- Sample 288 x 200 pt page with no crop rectangle. -/
def boxB : Box := ⟨0, 0, 288, 200⟩

/-- Page carrying boxB as its media rectangle. -/
def pageB : Page := ⟨boxB, none⟩

/-- Degenerate page of height zero. -/
def boxZ : Box := ⟨0, 0, 72, 0⟩

/-- Page carrying the degenerate boxZ as its media rectangle. -/
def pageZ : Page := ⟨boxZ, none⟩

/-- Unfolding lemma: with a nonempty document and an in-range page index,
build_strip_bytes succeeds and returns the layout of the selected page. -/
lemma build_strip_bytes_ok (pages : List Page) (idx count : ℤ) (g b : ℚ)
    (ucb sfb : Bool) (src : Page)
    (h0 : 0 ≤ idx) (h1 : idx < (pages.length : ℤ))
    (hsrc : pages[idx.toNat]? = some src) :
    build_strip_bytes pages idx count g b ucb sfb =
      .ok (stripCore src count g b ucb sfb) := by
  have hlt : idx.toNat < pages.length := by omega
  have hne : ¬ pages.length = 0 := by omega
  have hget : pages.get ⟨idx.toNat, hlt⟩ = src := by
    rw [List.getElem?_eq_getElem hlt] at hsrc
    simpa [List.get_eq_getElem] using hsrc
  unfold build_strip_bytes
  rw [if_neg hne, dif_pos (⟨h0, h1⟩ : 0 ≤ idx ∧ idx < (pages.length : ℤ))]
  exact congrArg (fun p => Except.ok (stripCore p count g b ucb sfb)) hget

/-- Unfolding lemma: with a nonempty document and an in-range page index,
build_two_labels succeeds and returns the layout of the selected page. -/
lemma build_two_labels_ok (pages : List Page) (idx : ℤ) (g sp : ℚ)
    (ucb : Bool) (src : Page)
    (h0 : 0 ≤ idx) (h1 : idx < (pages.length : ℤ))
    (hsrc : pages[idx.toNat]? = some src) :
    build_two_labels pages idx g sp ucb = .ok (twoCore src g sp ucb) := by
  have hlt : idx.toNat < pages.length := by omega
  have hne : ¬ pages.length = 0 := by omega
  have hget : pages.get ⟨idx.toNat, hlt⟩ = src := by
    rw [List.getElem?_eq_getElem hlt] at hsrc
    simpa [List.get_eq_getElem] using hsrc
  unfold build_two_labels
  rw [if_neg hne, dif_pos (⟨h0, h1⟩ : 0 ≤ idx ∧ idx < (pages.length : ℤ))]
  exact congrArg (fun p => Except.ok (twoCore p g sp ucb)) hget

/-- Placement of copy i of stripCore when the scaling branch is not
taken: an unscaled translation whose vertical offset is the planned
center minus half of placed_h = h + 2*bleed. -/
lemma stripCore_merge_noscale (src : Page) (count : ℤ) (g b : ℚ)
    (ucb sfb : Bool) (i : ℕ)
    (hc : ¬ (sfb ∧ 0 < boxH (get_box src ucb))) (hi : i < count.toNat) :
    (stripCore src count g b ucb sfb).merges[i]? =
      some { a := 1, d := 1, e := -(get_box src ucb).left,
             f := -(get_box src ucb).bottom +
               (b * 72 + (i : ℚ) * (boxH (get_box src ucb) + g * 72)
                 + boxH (get_box src ucb) / 2
                 - (boxH (get_box src ucb) + 2 * (b * 72)) / 2) } := by
  have hc2 : ¬ (sfb = true ∧
      0 < (get_box src ucb).top - (get_box src ucb).bottom) := by
    simpa [boxH] using hc
  have hr : (List.range count.toNat)[i]? = some i := by
    simp [List.getElem?_range, hi]
  simp only [stripCore, POINTS_PER_INCH, if_neg hc2, List.getElem?_map, hr,
    Option.map_some', boxH]
  refine congrArg some ?_
  simp only [Transformation.id, Transformation.translate, Transformation.mk.injEq]
  refine ⟨by ring, by ring, by ring, by ring⟩

/-- Placement of copy i of stripCore when the scaling branch is taken:
vertical scale sy = (h + 2*bleed)/h about the source origin, then a
translation whose vertical offset is the planned center minus half of
placed_h = h * sy. -/
lemma stripCore_merge_scale (src : Page) (count : ℤ) (g b : ℚ)
    (ucb : Bool) (i : ℕ)
    (hH : 0 < boxH (get_box src ucb)) (hi : i < count.toNat) :
    (stripCore src count g b ucb true).merges[i]? =
      some { a := 1,
             d := (boxH (get_box src ucb) + 2 * (b * 72)) / boxH (get_box src ucb),
             e := -(get_box src ucb).left,
             f := -(get_box src ucb).bottom *
                 ((boxH (get_box src ucb) + 2 * (b * 72)) / boxH (get_box src ucb)) +
               (b * 72 + (i : ℚ) * (boxH (get_box src ucb) + g * 72)
                 + boxH (get_box src ucb) / 2
                 - boxH (get_box src ucb) *
                   ((boxH (get_box src ucb) + 2 * (b * 72)) / boxH (get_box src ucb)) / 2) } := by
  have hH2 : 0 < (get_box src ucb).top - (get_box src ucb).bottom := by
    simpa [boxH] using hH
  have hr : (List.range count.toNat)[i]? = some i := by
    simp [List.getElem?_range, hi]
  simp only [stripCore, POINTS_PER_INCH, boxH]
  rw [if_pos (show True ∧ 0 < (get_box src ucb).top - (get_box src ucb).bottom
    from ⟨trivial, hH2⟩)]
  simp only [List.getElem?_map, hr, Option.map_some']
  refine congrArg some ?_
  simp only [Transformation.id, Transformation.translate, Transformation.scale,
    Transformation.mk.injEq]
  refine ⟨by ring, by ring, by ring, by ring⟩

/-- Placement of copy i of twoCore: vertical scale sy = 1 + sp/100 about
the source origin, then a translation by bottom_margin + i*(h + gap). -/
lemma twoCore_merge (src : Page) (g sp : ℚ) (ucb : Bool) (i : ℕ)
    (hi : i < 2) :
    (twoCore src g sp ucb).merges[i]? =
      some { a := 1, d := 1 + sp / 100,
             e := -(get_box src ucb).left,
             f := -(get_box src ucb).bottom * (1 + sp / 100) +
               ((boxH (get_box src ucb) * (1 + sp / 100) - boxH (get_box src ucb)) / 2
                 + (i : ℚ) * (boxH (get_box src ucb) + g * 72)) } := by
  interval_cases i
  all_goals
    simp only [twoCore, POINTS_PER_INCH, boxH, Transformation.id,
      Transformation.translate, Transformation.scale, List.getElem?_cons_zero,
      List.getElem?_cons_succ, Nat.cast_zero, Nat.cast_one,
      Transformation.mk.injEq, Option.some.injEq]
  all_goals refine ⟨by ring, by ring, by ring, by ring⟩

/-- Canvas dimensions of stripCore. -/
lemma stripCore_dims (src : Page) (count : ℤ) (g b : ℚ) (ucb sfb : Bool) :
    (stripCore src count g b ucb sfb).out_w = boxW (get_box src ucb) ∧
    (stripCore src count g b ucb sfb).out_h =
      (count : ℚ) * boxH (get_box src ucb) + ((count : ℚ) - 1) * (g * 72)
        + 2 * (b * 72) := by
  constructor <;> simp [stripCore, POINTS_PER_INCH, boxW, boxH]

/-- Number of copies placed by stripCore. -/
lemma stripCore_merge_len (src : Page) (count : ℤ) (g b : ℚ) (ucb sfb : Bool) :
    (stripCore src count g b ucb sfb).merges.length = count.toNat := by
  simp only [stripCore]
  rw [List.length_map, List.length_range]

/-- Claim C9: for every page on which no crop rectangle is defined,
resolving the page box with the crop policy yields exactly the same box
(and the same origin/width/height quadruple) as resolving with the
primary/media policy: the fallback to the media rectangle is silent and
is not an error. -/
theorem crop_fallback_primary (p : Page) (h : p.cropbox = none) :
    get_box p true = get_box p false ∧ get_dims p true = get_dims p false := by
  constructor <;> simp [get_box, get_dims, h]

/-- Witness for crop_fallback_primary at a concrete page without a crop
rectangle. -/
theorem crop_fallback_primary_instance :
    get_box pageA true = get_box pageA false ∧
    get_dims pageA true = get_dims pageA false :=
  crop_fallback_primary pageA rfl

/-- Claim C5: with no fill-bleed scaling, the derived canvas height is
copyCount * box.height + (copyCount - 1) * dieGap + bleedTop +
bleedBottom, with bleedTop = bleedBottom = bleed (all converted to
points). -/
theorem canvas_height_formula (pages : List Page) (idx count : ℤ) (g b : ℚ)
    (ucb : Bool) (src : Page)
    (h0 : 0 ≤ idx) (h1 : idx < (pages.length : ℤ))
    (hsrc : pages[idx.toNat]? = some src) :
    outH (build_strip_bytes pages idx count g b ucb false) =
      some ((count : ℚ) * boxH (get_box src ucb)
        + ((count : ℚ) - 1) * (g * 72) + (b * 72 + b * 72)) := by
  rw [build_strip_bytes_ok pages idx count g b ucb false src h0 h1 hsrc]
  simp only [outH]
  rw [(stripCore_dims src count g b ucb false).2]
  exact congrArg some (by ring)

/-- Witness for canvas_height_formula: two copies of a 200 pt tall page
with a 9 pt die gap and no bleed give a 409 pt canvas. -/
theorem canvas_height_409 :
    outH (build_strip_bytes [pageB] 0 2 (1/8) 0 false false) = some 409 := by
  have h := canvas_height_formula [pageB] 0 2 (1/8) 0 false pageB
    (by decide) (by decide) rfl
  rw [h]
  norm_num [boxH, get_box, pageB, boxB]

/-- Claim C3 counterexample: the claim says copyCount < 1, dieGap < 0 or
bleed < 0 must fail with InvalidSpec and produce no output; at
copyCount = 0, dieGap = -1 and bleed = -1 the code instead succeeds and
returns a canvas (of height -72 pt) with zero placements. -/
theorem no_spec_validation_cex :
    isOk (build_strip_bytes [pageA] 0 0 (-1) (-1) false false) = true ∧
    mergeCount (build_strip_bytes [pageA] 0 0 (-1) (-1) false false) = some 0 ∧
    outH (build_strip_bytes [pageA] 0 0 (-1) (-1) false false) = some (-72) := by
  rw [build_strip_bytes_ok [pageA] 0 0 (-1) (-1) false false pageA
    (by decide) (by decide) rfl]
  refine ⟨rfl, congrArg some (stripCore_merge_len pageA 0 (-1) (-1) false false), ?_⟩
  simp only [outH]
  rw [(stripCore_dims pageA 0 (-1) (-1) false false).2]
  norm_num [boxH, get_box, pageA, boxA]

/-- Claim C3 amended: the engine performs no layout-spec validation at
all.  For every copyCount (including zero and negative), every dieGap
and every bleed (including negative ones), the run succeeds whenever the
document is nonempty and the page index is in range, and it places
max(copyCount, 0) copies; copyCount <= 0 silently yields zero
placements.  The only failures are the empty-document and
index-out-of-range checks. -/
theorem no_spec_validation (pages : List Page) (idx count : ℤ) (g b : ℚ)
    (ucb sfb : Bool) (src : Page)
    (h0 : 0 ≤ idx) (h1 : idx < (pages.length : ℤ))
    (hsrc : pages[idx.toNat]? = some src) :
    isOk (build_strip_bytes pages idx count g b ucb sfb) = true ∧
    mergeCount (build_strip_bytes pages idx count g b ucb sfb) =
      some count.toNat := by
  rw [build_strip_bytes_ok pages idx count g b ucb sfb src h0 h1 hsrc]
  exact ⟨rfl, congrArg some (stripCore_merge_len src count g b ucb sfb)⟩

/-- Witness for no_spec_validation at a concrete invalid spec:
copyCount = -5, dieGap = -1, bleed = -1 still succeed, with zero
placements. -/
theorem no_spec_validation_instance :
    isOk (build_strip_bytes [pageA] 0 (-5) (-1) (-1) true false) = true ∧
    mergeCount (build_strip_bytes [pageA] 0 (-5) (-1) (-1) true false) =
      some 0 := by
  simpa using no_spec_validation [pageA] 0 (-5) (-1) (-1) true false pageA
    (by decide) (by decide) rfl

/-- Claim C4 counterexample: the claim says a zero-height box under
fill-bleed scaling must fail with InvalidGeometry and produce no
placements; on a zero-height page with scale_for_bleed requested the
code instead succeeds and produces a placement. -/
theorem zero_height_fill_bleed_cex :
    isOk (build_strip_bytes [pageZ] 0 1 0 (1/8) false true) = true ∧
    mergeCount (build_strip_bytes [pageZ] 0 1 0 (1/8) false true) = some 1 := by
  rw [build_strip_bytes_ok [pageZ] 0 1 0 (1/8) false true pageZ
    (by decide) (by decide) rfl]
  exact ⟨rfl, congrArg some (stripCore_merge_len pageZ 1 0 (1/8) false true)⟩

/-- Claim C4 amended: when the resolved box height is zero and
fill-bleed scaling is requested, the division by zero is indeed guarded
(the condition is scale_for_bleed and h > 0), but no InvalidGeometry
error is surfaced: the engine silently falls back to the unscaled
branch, so the run is identical to the same run with scale_for_bleed
off, and placements are still produced. -/
theorem zero_height_fill_bleed_fallback (pages : List Page) (idx count : ℤ)
    (g b : ℚ) (ucb : Bool) (src : Page)
    (h0 : 0 ≤ idx) (h1 : idx < (pages.length : ℤ))
    (hsrc : pages[idx.toNat]? = some src)
    (hz : boxH (get_box src ucb) = 0) :
    build_strip_bytes pages idx count g b ucb true =
      build_strip_bytes pages idx count g b ucb false := by
  rw [build_strip_bytes_ok pages idx count g b ucb true src h0 h1 hsrc,
    build_strip_bytes_ok pages idx count g b ucb false src h0 h1 hsrc]
  have hz2 : (get_box src ucb).top - (get_box src ucb).bottom = 0 := by
    simpa [boxH] using hz
  simp [stripCore, hz2]

/-- Witness for zero_height_fill_bleed_fallback at the concrete
zero-height page. -/
theorem zero_height_fill_bleed_fallback_instance :
    build_strip_bytes [pageZ] 0 1 0 (1/8) false true =
      build_strip_bytes [pageZ] 0 1 0 (1/8) false false :=
  zero_height_fill_bleed_fallback [pageZ] 0 1 0 (1/8) false pageZ
    (by decide) (by decide) rfl (by norm_num [boxH, get_box, pageZ, boxZ])

/-- Claim C1: in every scale mode of both implementations, the die gap --
the distance between the unscaled bottom edge of copy i+1 and the
unscaled top edge of copy i -- equals dieGap (converted to points)
exactly, regardless of any vertical scaling applied to the rendered
art. -/
theorem die_gap_invariant :
    (∀ (pages : List Page) (idx count : ℤ) (g b : ℚ) (ucb sfb : Bool)
      (src : Page) (i : ℕ),
      0 ≤ idx → idx < (pages.length : ℤ) → pages[idx.toNat]? = some src →
      0 < boxH (get_box src ucb) → 0 ≤ g → 0 ≤ b → i + 1 < count.toNat →
      dieGapAt (build_strip_bytes pages idx count g b ucb sfb)
        (get_box src ucb) i = some (g * 72)) ∧
    (∀ (pages : List Page) (idx : ℤ) (g sp : ℚ) (ucb : Bool) (src : Page),
      0 ≤ idx → idx < (pages.length : ℤ) → pages[idx.toNat]? = some src →
      0 < boxH (get_box src ucb) → 0 ≤ g → 0 ≤ sp →
      dieGapAt (build_two_labels pages idx g sp ucb)
        (get_box src ucb) 0 = some (g * 72)) := by
  constructor
  · intro pages idx count g b ucb sfb src i h0 h1 hsrc hH hg hb hi
    rw [build_strip_bytes_ok pages idx count g b ucb sfb src h0 h1 hsrc]
    by_cases hs : sfb = true ∧ 0 < boxH (get_box src ucb)
    · obtain ⟨hs1, hH2⟩ := hs
      subst hs1
      have hm1 := stripCore_merge_scale src count g b ucb (i + 1) hH2 hi
      have hm0 := stripCore_merge_scale src count g b ucb i hH2 (by omega)
      simp only [dieGapAt, unscaledBottomAt, unscaledTopAt, dieCenterAt,
        mergeAt, hm1, hm0, Option.map_some', Transformation.applyY]
      refine congrArg some ?_
      have hne : boxH (get_box src ucb) ≠ 0 := ne_of_gt hH2
      simp only [boxH] at hne ⊢
      push_cast
      field_simp
      ring
    · have hm1 := stripCore_merge_noscale src count g b ucb sfb (i + 1) hs hi
      have hm0 := stripCore_merge_noscale src count g b ucb sfb i hs (by omega)
      simp only [dieGapAt, unscaledBottomAt, unscaledTopAt, dieCenterAt,
        mergeAt, hm1, hm0, Option.map_some', Transformation.applyY]
      refine congrArg some ?_
      simp only [boxH]
      push_cast
      ring
  · intro pages idx g sp ucb src h0 h1 hsrc hH hg hsp
    rw [build_two_labels_ok pages idx g sp ucb src h0 h1 hsrc]
    have hm1 := twoCore_merge src g sp ucb 1 (by omega)
    have hm0 := twoCore_merge src g sp ucb 0 (by omega)
    simp only [dieGapAt, unscaledBottomAt, unscaledTopAt, dieCenterAt,
      mergeAt, hm1, hm0, Option.map_some', Transformation.applyY]
    refine congrArg some ?_
    simp only [boxH]
    push_cast
    ring

/-- Witness for die_gap_invariant: a 100 pt tall page, a 1/8 in die gap
and 1/8 in bleed under fill-bleed scaling, and the same page through
build_two_labels at two percent vertical scale, both realize a 9 pt die
gap. -/
theorem die_gap_invariant_instance :
    dieGapAt (build_strip_bytes [pageA] 0 3 (1/8) (1/8) false true)
      (get_box pageA false) 0 = some ((1/8) * 72) ∧
    dieGapAt (build_two_labels [pageA] 0 (1/8) 2 false)
      (get_box pageA false) 0 = some ((1/8) * 72) :=
  ⟨die_gap_invariant.1 [pageA] 0 3 (1/8) (1/8) false true pageA 0
      (by decide) (by decide) rfl
      (by norm_num [boxH, get_box, pageA, boxA]) (by norm_num) (by norm_num)
      (by decide),
    die_gap_invariant.2 [pageA] 0 (1/8) 2 false pageA
      (by decide) (by decide) rfl
      (by norm_num [boxH, get_box, pageA, boxA]) (by norm_num) (by norm_num)⟩

/-- Claim C2 counterexample: the claim says vertical-only scaling leaves
each die centerline invariant, but on a 100 pt tall page with dieGap = 0
the die center of copy 0 under a two percent vertical scale differs from
the die center of the unscaled run (52 pt against 50 pt). -/
theorem scaled_center_shift_cex :
    dieCenterAt (build_two_labels [pageA] 0 0 2 false) (get_box pageA false) 0 ≠
      dieCenterAt (build_two_labels [pageA] 0 0 0 false) (get_box pageA false) 0 := by
  rw [build_two_labels_ok [pageA] 0 0 2 false pageA (by decide) (by decide) rfl,
    build_two_labels_ok [pageA] 0 0 0 false pageA (by decide) (by decide) rfl]
  have hm2 := twoCore_merge pageA 0 2 false 0 (by omega)
  have hm0 := twoCore_merge pageA 0 0 false 0 (by omega)
  simp only [dieCenterAt, mergeAt, hm2, hm0, Option.map_some',
    Transformation.applyY, ne_eq, Option.some.injEq]
  norm_num [boxH, get_box, pageA, boxA]

/-- Claim C2 amended: vertical-only scaling does not leave the absolute
die centerlines invariant; instead it shifts every die center upward by
one and the same amount, independent of the copy index i -- by
box.height * scalePercent / 100 in build_two_labels, and by bleed (in
points) in build_strip_bytes under scale_for_bleed.  Center-to-center
spacing and the die gap are therefore preserved, and the centers of the
scaled run equal those of the unscaled run exactly when that shift is
zero. -/
theorem center_shift_uniform :
    (∀ (pages : List Page) (idx : ℤ) (g sp : ℚ) (ucb : Bool) (src : Page) (i : ℕ),
      0 ≤ idx → idx < (pages.length : ℤ) → pages[idx.toNat]? = some src →
      0 < boxH (get_box src ucb) → 0 ≤ sp → i < 2 →
      centerShift (build_two_labels pages idx g sp ucb)
        (build_two_labels pages idx g 0 ucb) (get_box src ucb) i =
        some (boxH (get_box src ucb) * sp / 100)) ∧
    (∀ (pages : List Page) (idx count : ℤ) (g b : ℚ) (ucb : Bool) (src : Page) (i : ℕ),
      0 ≤ idx → idx < (pages.length : ℤ) → pages[idx.toNat]? = some src →
      0 < boxH (get_box src ucb) → 0 ≤ b → i < count.toNat →
      centerShift (build_strip_bytes pages idx count g b ucb true)
        (build_strip_bytes pages idx count g b ucb false) (get_box src ucb) i =
        some (b * 72)) := by
  constructor
  · intro pages idx g sp ucb src i h0 h1 hsrc hH hsp hi
    rw [build_two_labels_ok pages idx g sp ucb src h0 h1 hsrc,
      build_two_labels_ok pages idx g 0 ucb src h0 h1 hsrc]
    have hm1 := twoCore_merge src g sp ucb i hi
    have hm0 := twoCore_merge src g 0 ucb i hi
    simp only [centerShift, dieCenterAt, mergeAt, hm1, hm0, Option.map_some',
      Transformation.applyY]
    refine congrArg some ?_
    simp only [boxH]
    ring
  · intro pages idx count g b ucb src i h0 h1 hsrc hH hb hi
    rw [build_strip_bytes_ok pages idx count g b ucb true src h0 h1 hsrc,
      build_strip_bytes_ok pages idx count g b ucb false src h0 h1 hsrc]
    have hm1 := stripCore_merge_scale src count g b ucb i hH hi
    have hm0 := stripCore_merge_noscale src count g b ucb false i (by simp) hi
    simp only [centerShift, dieCenterAt, mergeAt, hm1, hm0, Option.map_some',
      Transformation.applyY]
    refine congrArg some ?_
    have hne : boxH (get_box src ucb) ≠ 0 := ne_of_gt hH
    simp only [boxH] at hne ⊢
    field_simp
    ring

/-- Witness for center_shift_uniform: concrete shifts of 2 pt
(two percent of 100 pt) for build_two_labels and 9 pt (the bleed) for
build_strip_bytes. -/
theorem center_shift_uniform_instance :
    centerShift (build_two_labels [pageA] 0 0 2 false)
      (build_two_labels [pageA] 0 0 0 false) (get_box pageA false) 0 =
      some (boxH (get_box pageA false) * 2 / 100) ∧
    centerShift (build_strip_bytes [pageA] 0 2 0 (1/8) false true)
      (build_strip_bytes [pageA] 0 2 0 (1/8) false false)
      (get_box pageA false) 1 = some ((1/8) * 72) :=
  ⟨center_shift_uniform.1 [pageA] 0 0 2 false pageA 0 (by decide) (by decide) rfl
      (by norm_num [boxH, get_box, pageA, boxA]) (by norm_num) (by decide),
    center_shift_uniform.2 [pageA] 0 2 0 (1/8) false pageA 1 (by decide) (by decide)
      rfl (by norm_num [boxH, get_box, pageA, boxA]) (by norm_num) (by decide)⟩

/-- Claim C6: in edge-to-edge stacking the planner produces the ordered
die-center sequence center_i = bleedBottom + i * (box.height + dieGap) +
box.height / 2 with bleedBottom = bleed: in both scale modes, copy i is
placed with its bottom edge exactly half of the placed height
box.height + 2 * bleed below that planned center, and under fill-bleed
scaling the realized die center of copy i equals the planned center
exactly. -/
theorem planned_die_centers (pages : List Page) (idx count : ℤ) (g b : ℚ)
    (ucb sfb : Bool) (src : Page) (i : ℕ)
    (h0 : 0 ≤ idx) (h1 : idx < (pages.length : ℤ))
    (hsrc : pages[idx.toNat]? = some src)
    (hH : 0 < boxH (get_box src ucb)) (hg : 0 ≤ g) (hb : 0 ≤ b)
    (hi : i < count.toNat) :
    artBottomAt (build_strip_bytes pages idx count g b ucb sfb)
        (get_box src ucb) i =
      some ((b * 72 + (i : ℚ) * (boxH (get_box src ucb) + g * 72)
          + boxH (get_box src ucb) / 2)
        - (boxH (get_box src ucb) + 2 * (b * 72)) / 2) ∧
    (sfb = true →
      dieCenterAt (build_strip_bytes pages idx count g b ucb sfb)
          (get_box src ucb) i =
        some (b * 72 + (i : ℚ) * (boxH (get_box src ucb) + g * 72)
          + boxH (get_box src ucb) / 2)) := by
  rw [build_strip_bytes_ok pages idx count g b ucb sfb src h0 h1 hsrc]
  constructor
  · by_cases hs : sfb = true ∧ 0 < boxH (get_box src ucb)
    · obtain ⟨hs1, hH2⟩ := hs
      subst hs1
      have hm := stripCore_merge_scale src count g b ucb i hH2 hi
      simp only [artBottomAt, mergeAt, hm, Option.map_some', Transformation.applyY]
      refine congrArg some ?_
      have hne : boxH (get_box src ucb) ≠ 0 := ne_of_gt hH2
      simp only [boxH] at hne ⊢
      field_simp
      ring
    · have hm := stripCore_merge_noscale src count g b ucb sfb i hs hi
      simp only [artBottomAt, mergeAt, hm, Option.map_some', Transformation.applyY]
      refine congrArg some ?_
      simp only [boxH]
      ring
  · intro hs1
    subst hs1
    have hm := stripCore_merge_scale src count g b ucb i hH hi
    simp only [dieCenterAt, mergeAt, hm, Option.map_some', Transformation.applyY]
    refine congrArg some ?_
    simp only [boxH]
    ring

/-- Witness for planned_die_centers at a concrete fill-bleed run. -/
theorem planned_die_centers_instance :
    artBottomAt (build_strip_bytes [pageA] 0 2 (1/8) (1/8) false true)
        (get_box pageA false) 1 =
      some ((1/8 * 72 + ((1 : ℕ) : ℚ) * (boxH (get_box pageA false) + 1/8 * 72)
          + boxH (get_box pageA false) / 2)
        - (boxH (get_box pageA false) + 2 * (1/8 * 72)) / 2) ∧
    dieCenterAt (build_strip_bytes [pageA] 0 2 (1/8) (1/8) false true)
        (get_box pageA false) 1 =
      some (1/8 * 72 + ((1 : ℕ) : ℚ) * (boxH (get_box pageA false) + 1/8 * 72)
        + boxH (get_box pageA false) / 2) :=
  ⟨(planned_die_centers [pageA] 0 2 (1/8) (1/8) false true pageA 1 (by decide)
      (by decide) rfl (by norm_num [boxH, get_box, pageA, boxA]) (by norm_num)
      (by norm_num) (by decide)).1,
    (planned_die_centers [pageA] 0 2 (1/8) (1/8) false true pageA 1 (by decide)
      (by decide) rfl (by norm_num [boxH, get_box, pageA, boxA]) (by norm_num)
      (by norm_num) (by decide)).2 rfl⟩

/-- Claim C7 counterexample: the claim says that with no fill-bleed
scaling the unscaled bottom edge of each copy lands at
dieCenter - box.height / 2 for every bleed; with a 1/8 in (9 pt) bleed
on a 100 pt page the bottom edge of copy 0 lands at 0 pt, while the
planned dieCenter - box.height / 2 equals 9 pt. -/
theorem offset_bleed_shift_cex :
    artBottomAt (build_strip_bytes [pageA] 0 1 0 (1/8) false false)
      (get_box pageA false) 0 = some 0 ∧
    ((1 : ℚ)/8 * 72 + 0 * (100 + 0 * 72) + 100 / 2) - 100 / 2 ≠ (0 : ℚ) := by
  constructor
  · rw [build_strip_bytes_ok [pageA] 0 1 0 (1/8) false false pageA
      (by decide) (by decide) rfl]
    have hm := stripCore_merge_noscale pageA 1 0 (1/8) false false 0 (by simp)
      (by decide)
    simp only [artBottomAt, mergeAt, hm, Option.map_some', Transformation.applyY]
    refine congrArg some ?_
    norm_num [boxH, get_box, pageA, boxA]
  · norm_num

/-- Claim C7 amended: with no fill-bleed scaling, scaleX = scaleY = 1 and
the horizontal placement is the stated normalization, but the vertical
offset places the bottom edge at dieCenter - box.height / 2 - bleed
(that is, at i * (box.height + dieGap)), not at
dieCenter - box.height / 2; the claimed landing holds exactly when
bleed = 0. -/
theorem offset_formula_with_bleed (pages : List Page) (idx count : ℤ) (g b : ℚ)
    (ucb : Bool) (src : Page) (i : ℕ)
    (h0 : 0 ≤ idx) (h1 : idx < (pages.length : ℤ))
    (hsrc : pages[idx.toNat]? = some src)
    (hH : 0 < boxH (get_box src ucb)) (hg : 0 ≤ g) (hb : 0 ≤ b)
    (hi : i < count.toNat) :
    mergeAt (build_strip_bytes pages idx count g b ucb false) i =
      some { a := 1, d := 1, e := -(get_box src ucb).left,
             f := -(get_box src ucb).bottom +
               ((b * 72 + (i : ℚ) * (boxH (get_box src ucb) + g * 72)
                   + boxH (get_box src ucb) / 2)
                 - boxH (get_box src ucb) / 2 - b * 72) } := by
  rw [build_strip_bytes_ok pages idx count g b ucb false src h0 h1 hsrc]
  have hm := stripCore_merge_noscale src count g b ucb false i (by simp) hi
  simp only [mergeAt, hm, Option.some.injEq, Transformation.mk.injEq, true_and]
  ring

/-- Witness for offset_formula_with_bleed at a concrete run with
nonzero bleed. -/
theorem offset_formula_with_bleed_instance :
    mergeAt (build_strip_bytes [pageA] 0 1 0 (1/8) false false) 0 =
      some { a := 1, d := 1, e := -(get_box pageA false).left,
             f := -(get_box pageA false).bottom +
               ((1/8 * 72 + ((0 : ℕ) : ℚ) * (boxH (get_box pageA false) + 0 * 72)
                   + boxH (get_box pageA false) / 2)
                 - boxH (get_box pageA false) / 2 - 1/8 * 72) } :=
  offset_formula_with_bleed [pageA] 0 1 0 (1/8) false pageA 0 (by decide)
    (by decide) rfl (by norm_num [boxH, get_box, pageA, boxA]) (by norm_num)
    (by norm_num) (by decide)

/-- Claim C8: under fill-bleed scaling the bleed margins are realized as
extra scaled copy height rather than extra canvas margin: every placed
copy is box.height + 2 * bleed tall, the bottom-most scaled art starts
at canvas y = 0 and the top-most scaled art ends exactly at the canvas
height, so the canvas carries no blank 2 * bleed extension beyond the
scaled copies, unlike the non-fill mode. -/
theorem fill_bleed_no_extra_margin (pages : List Page) (idx count : ℤ)
    (g b : ℚ) (ucb : Bool) (src : Page)
    (h0 : 0 ≤ idx) (h1 : idx < (pages.length : ℤ))
    (hsrc : pages[idx.toNat]? = some src)
    (hH : 0 < boxH (get_box src ucb)) (hg : 0 ≤ g) (hb : 0 ≤ b)
    (hcount : 1 ≤ count) :
    (∀ i, i < count.toNat →
      placedHeightAt (build_strip_bytes pages idx count g b ucb true)
        (get_box src ucb) i = some (boxH (get_box src ucb) + 2 * (b * 72))) ∧
    artBottomAt (build_strip_bytes pages idx count g b ucb true)
      (get_box src ucb) 0 = some 0 ∧
    artTopAt (build_strip_bytes pages idx count g b ucb true)
      (get_box src ucb) (count.toNat - 1) =
      outH (build_strip_bytes pages idx count g b ucb true) := by
  rw [build_strip_bytes_ok pages idx count g b ucb true src h0 h1 hsrc]
  have hne : boxH (get_box src ucb) ≠ 0 := ne_of_gt hH
  refine ⟨?_, ?_, ?_⟩
  · intro i hi
    have hm := stripCore_merge_scale src count g b ucb i hH hi
    simp only [placedHeightAt, artTopAt, artBottomAt, mergeAt, hm,
      Option.map_some', Transformation.applyY]
    refine congrArg some ?_
    simp only [boxH] at hne ⊢
    field_simp
    ring
  · have hm := stripCore_merge_scale src count g b ucb 0 hH (by omega)
    simp only [artBottomAt, mergeAt, hm, Option.map_some', Transformation.applyY]
    refine congrArg some ?_
    simp only [boxH] at hne ⊢
    push_cast
    field_simp
    ring
  · have hm := stripCore_merge_scale src count g b ucb (count.toNat - 1) hH
      (by omega)
    simp only [artTopAt, outH, mergeAt, hm, Option.map_some',
      Transformation.applyY]
    rw [(stripCore_dims src count g b ucb true).2]
    refine congrArg some ?_
    have hcast : ((count.toNat - 1 : ℕ) : ℚ) = (count : ℚ) - 1 := by
      have h1n : 1 ≤ count.toNat := by omega
      have h2 : ((count.toNat : ℕ) : ℚ) = (count : ℚ) := by
        rw [← Int.cast_natCast, Int.toNat_of_nonneg (by omega)]
      rw [Nat.cast_sub h1n, h2, Nat.cast_one]
    rw [hcast]
    simp only [boxH] at hne ⊢
    field_simp
    ring

/-- Witness for fill_bleed_no_extra_margin at a concrete two-copy
fill-bleed run. -/
theorem fill_bleed_no_extra_margin_instance :
    placedHeightAt (build_strip_bytes [pageA] 0 2 (1/8) (1/8) false true)
      (get_box pageA false) 1 = some (boxH (get_box pageA false) + 2 * (1/8 * 72)) ∧
    artBottomAt (build_strip_bytes [pageA] 0 2 (1/8) (1/8) false true)
      (get_box pageA false) 0 = some 0 ∧
    artTopAt (build_strip_bytes [pageA] 0 2 (1/8) (1/8) false true)
      (get_box pageA false) ((2 : ℤ).toNat - 1) =
      outH (build_strip_bytes [pageA] 0 2 (1/8) (1/8) false true) :=
  ⟨(fill_bleed_no_extra_margin [pageA] 0 2 (1/8) (1/8) false pageA (by decide)
      (by decide) rfl (by norm_num [boxH, get_box, pageA, boxA]) (by norm_num)
      (by norm_num) (by decide)).1 1 (by decide),
    (fill_bleed_no_extra_margin [pageA] 0 2 (1/8) (1/8) false pageA (by decide)
      (by decide) rfl (by norm_num [boxH, get_box, pageA, boxA]) (by norm_num)
      (by norm_num) (by decide)).2.1,
    (fill_bleed_no_extra_margin [pageA] 0 2 (1/8) (1/8) false pageA (by decide)
      (by decide) rfl (by norm_num [boxH, get_box, pageA, boxA]) (by norm_num)
      (by norm_num) (by decide)).2.2⟩

/-- Claim C10: in both scale modes of build_strip_bytes, the placed
bottom edge of copy i is exactly i * (box.height + dieGap) in points:
the bottom-most art always starts at canvas y = 0 and successive copies
are translates of each other by exactly box.height + dieGap,
independent of bleed. -/
theorem art_bottom_alignment (pages : List Page) (idx count : ℤ) (g b : ℚ)
    (ucb sfb : Bool) (src : Page) (i : ℕ)
    (h0 : 0 ≤ idx) (h1 : idx < (pages.length : ℤ))
    (hsrc : pages[idx.toNat]? = some src)
    (hcount : 1 ≤ count) (hb : 0 ≤ b) (hH : 0 < boxH (get_box src ucb))
    (hi : i < count.toNat) :
    artBottomAt (build_strip_bytes pages idx count g b ucb sfb)
      (get_box src ucb) i =
      some ((i : ℚ) * (boxH (get_box src ucb) + g * 72)) := by
  rw [build_strip_bytes_ok pages idx count g b ucb sfb src h0 h1 hsrc]
  by_cases hs : sfb = true ∧ 0 < boxH (get_box src ucb)
  · obtain ⟨hs1, hH2⟩ := hs
    subst hs1
    have hm := stripCore_merge_scale src count g b ucb i hH2 hi
    simp only [artBottomAt, mergeAt, hm, Option.map_some', Transformation.applyY]
    refine congrArg some ?_
    have hne : boxH (get_box src ucb) ≠ 0 := ne_of_gt hH2
    simp only [boxH] at hne ⊢
    field_simp
    ring
  · have hm := stripCore_merge_noscale src count g b ucb sfb i hs hi
    simp only [artBottomAt, mergeAt, hm, Option.map_some', Transformation.applyY]
    refine congrArg some ?_
    simp only [boxH]
    ring

/-- Witness for art_bottom_alignment: with a 9 pt bleed and no scaling,
copy 0 of a two-copy run still starts at canvas y = 0. -/
theorem art_bottom_alignment_instance :
    artBottomAt (build_strip_bytes [pageA] 0 2 0 (1/8) false false)
      (get_box pageA false) 0 =
      some (((0 : ℕ) : ℚ) * (boxH (get_box pageA false) + 0 * 72)) :=
  art_bottom_alignment [pageA] 0 2 0 (1/8) false false pageA 0 (by decide)
    (by decide) rfl (by decide) (by norm_num)
    (by norm_num [boxH, get_box, pageA, boxA]) (by decide)
